import Mathlib

/-!
Shallow embedding of `src/two_body_gym.py` (class `SpacecraftEnv`).

Numpy floating-point arithmetic is modelled by exact real arithmetic (`ℝ`);
`np.sqrt` by `Real.sqrt`, `np.arccos` by `Real.arccos`, `np.cross` by the
3-dimensional cross product, `np.linalg.norm` by the Euclidean norm.
The scipy adaptive integrator `solve_ivp` is kept abstract: it enters the
development as an explicit function parameter `integrate`, while the
argument validation scipy performs before integrating (`max_step` must be
positive) is modelled explicitly, since the repository code computes
`max_step = duration / 100` and hands it to scipy.
Python exceptions (`KeyError` from the action-map dictionary lookup,
`ValueError` from scipy's `validate_max_step`) are modelled with `Except`.
-/

noncomputable section

namespace TwoBodyGym

/-- A length-3 numpy vector (one half of the 6-dimensional state array). -/
structure Vec3 where
  x : ℝ
  y : ℝ
  z : ℝ

/-- Sum of squared components. -/
def Vec3.normSq (a : Vec3) : ℝ := a.x ^ 2 + a.y ^ 2 + a.z ^ 2

/-- Euclidean norm, `np.linalg.norm`. -/
def Vec3.norm (a : Vec3) : ℝ := Real.sqrt a.normSq

/-- Componentwise addition (numpy `+=` on a slice). -/
def Vec3.addV (a b : Vec3) : Vec3 := ⟨a.x + b.x, a.y + b.y, a.z + b.z⟩

/-- Division of a vector by a scalar (numpy `v / c`). -/
def Vec3.divScalar (a : Vec3) (c : ℝ) : Vec3 := ⟨a.x / c, a.y / c, a.z / c⟩

/-- Multiplication of a vector by a scalar on the right (numpy `v * c`). -/
def Vec3.mulScalar (a : Vec3) (c : ℝ) : Vec3 := ⟨a.x * c, a.y * c, a.z * c⟩

/-- Multiplication of a vector by a scalar on the left (numpy `c * v`). -/
def Vec3.smul (c : ℝ) (a : Vec3) : Vec3 := ⟨c * a.x, c * a.y, c * a.z⟩

/-- Cross product, `np.cross`. -/
def Vec3.cross (a b : Vec3) : Vec3 :=
  ⟨a.y * b.z - a.z * b.y, a.z * b.x - a.x * b.z, a.x * b.y - a.y * b.x⟩

/-- The 6-dimensional Cartesian state: position `state[0:3]`, velocity
`state[3:6]`. -/
structure StateVec where
  r : Vec3
  v : Vec3

/-- Primary-body radius, `self.earth_radius = 6371.0` (km). -/
def earth_radius : ℝ := 6371

/-- Gravitational parameter, `self.earth_mu = 398600.0` (km^3/s^2). -/
def earth_mu : ℝ := 398600

/-- Target orbit radius, `r_mag_final = self.earth_radius + 35786.0`. -/
def r_mag_final : ℝ := earth_radius + 35786

/-- Target orbit speed, `v_mag_final = np.sqrt(self.earth_mu / r_mag_final)`. -/
def v_mag_final : ℝ := Real.sqrt (earth_mu / r_mag_final)

/-- The fixed target state, `self.final_orbit = np.concatenate([rf, vf])`. -/
def final_orbit : StateVec := ⟨⟨r_mag_final, 0, 0⟩, ⟨0, v_mag_final, 0⟩⟩

/-- Specific orbital energy, method `get_energy`:
`0.5 * norm(v) ** 2 - mu / norm(r)`. -/
def get_energy (s : StateVec) : ℝ :=
  0.5 * s.v.norm ^ 2 - earth_mu / s.r.norm

/-- Semi-major axis, method `get_semimajor_axis`: `-mu / (2 * E)`. -/
def get_semimajor_axis (s : StateVec) : ℝ :=
  -earth_mu / (2 * get_energy s)

/-- Orbital elements `(a, e, i)`, method `get_orbital_elements`. -/
def get_orbital_elements (s : StateVec) : ℝ × ℝ × ℝ :=
  let E := 0.5 * s.v.norm ^ 2 - earth_mu / s.r.norm
  let a := -earth_mu / (2 * E)
  let h := s.r.cross s.v
  let e := Real.sqrt (1 + (2 * h.norm ^ 2 * E) / earth_mu ^ 2)
  let i := Real.arccos (h.z / h.norm)
  (a, e, i)

/-- Reward and termination flag, method `compare_orbits`.  The returned
reward starts at 1 and gains a bonus of 2000 exactly when both the
relative semi-major-axis difference and the floored eccentricity
difference fall below 0.1; `iDiff` is computed but unused, as in the
source. -/
def compare_orbits (s : StateVec) : ℝ × Bool :=
  let aTrue := (get_orbital_elements final_orbit).1
  let eTrue := (get_orbital_elements final_orbit).2.1
  let iTrue := (get_orbital_elements final_orbit).2.2
  let a := (get_orbital_elements s).1
  let e := (get_orbital_elements s).2.1
  let i := (get_orbital_elements s).2.2
  let aDiff := |(aTrue - a) / aTrue|
  let eDiff := max |eTrue - e| 0.01
  let _iDiff := |iTrue - i| / max 0.01 iTrue
  let aMatch := aDiff < 0.1
  let eMatch := eDiff < 0.1
  if aMatch ∧ eMatch then (1 + 2000, true) else (1, false)

/-- Linear grid, `np.linspace(a, b, n)` (endpoints included). -/
def linspace (a b : ℝ) (n : ℕ) : List ℝ :=
  (List.range n).map (fun i => a + (b - a) * i / ((n : ℝ) - 1))

/-- Wait-fraction grid, `np.linspace(0, 1 - 1/dt, dt)` with `dt = 4`. -/
def wait_actions : List ℝ := linspace 0 (1 - 1 / 4) 4

/-- Thrust-magnitude grid,
`np.linspace(-max_thrust/2, max_thrust, 6)` with `max_thrust = 1`. -/
def thrust_actions : List ℝ := linspace (-(1 / 2)) 1 6

/-- Action grid: the nested loops over `wait_actions` (outer) and
`thrust_actions` (inner) building `action_pairs`. -/
def action_pairs : List (ℝ × ℝ) :=
  wait_actions.flatMap (fun w => thrust_actions.map (fun t => (w, t)))

/-- The dictionary `self.action_map = {index: pair for index, pair in
enumerate(action_pairs)}`: a lookup keyed by the integers `0 .. 23`;
any other key raises `KeyError`, modelled by `none`. -/
def action_map (idx : ℤ) : Option (ℝ × ℝ) :=
  if idx < 0 then none else action_pairs.get? idx.toNat

/-- Mutable session state: the current state vector `self.state` and the
trajectory history `self.x_hist` (a 6×N array, modelled as a list of
column states). -/
structure Session where
  state : StateVec
  x_hist : List StateVec

/-- Python exceptions the embedded entry points can raise. -/
inductive EnvError where
  /-- Dictionary lookup `self.action_map[a_ind]` on a missing key. -/
  | keyError : EnvError
  /-- Raised by scipy when `solve_ivp` is handed a non-positive `max_step`. -/
  | valueError : EnvError
deriving DecidableEq

/-- Result of one `step` call: the mutated session, the returned
observation (`self.state`), the reward and the done flag. -/
structure StepOut where
  session : Session
  obs : StateVec
  reward : ℝ
  done : Bool

/-- Method `orbit_propogation` in its in-session form (`state is
self.state`): calls `solve_ivp(self.diff_q, (0, duration), state,
max_step=duration / 100)`, then replaces `self.state` with the last
solution column and appends all columns to `self.x_hist`.  scipy's
`validate_max_step` raises `ValueError` when `max_step <= 0`, which the
call hits whenever `duration / 100 <= 0`; the integration itself is the
abstract parameter `integrate`, returning the solution columns. -/
def orbit_propogation (integrate : ℝ → StateVec → List StateVec)
    (duration : ℝ) (sess : Session) : Except EnvError Session :=
  if duration / 100 ≤ 0 then .error .valueError
  else
    let traj := integrate duration sess.state
    .ok ⟨traj.getLastD sess.state, sess.x_hist ++ traj⟩

/-- Method `step`.  Decodes the action index through `action_map`
(raising `KeyError` outside its domain), takes the early degenerate-orbit
return when the semi-major axis is below `earth_radius`, otherwise
optionally propagates through the wait fraction, applies the impulsive
thrust along the velocity unit vector, and scores the updated state with
`compare_orbits` minus the thrust penalty. -/
def step (integrate : ℝ → StateVec → List StateVec)
    (a_ind : ℤ) (sess : Session) : Except EnvError StepOut :=
  match action_map a_ind with
  | none => .error .keyError
  | some action =>
    let thrust_magnitude := action.2
    let a := get_semimajor_axis sess.state
    if a < earth_radius then
      .ok ⟨sess, sess.state, -5000 - |thrust_magnitude|, true⟩
    else
      let period := 2 * Real.pi * Real.sqrt (a ^ 3 / earth_mu)
      let waited : Except EnvError Session :=
        if action.1 ≠ 0 then orbit_propogation integrate (period * action.1) sess
        else .ok sess
      match waited with
      | .error err => .error err
      | .ok sess1 =>
        let unit_v :=
          ((sess1.state.v.divScalar sess1.state.v.norm).mulScalar
            thrust_magnitude).mulScalar 0.5
        let newState : StateVec := ⟨sess1.state.r, sess1.state.v.addV unit_v⟩
        let sess2 : Session := ⟨newState, sess1.x_hist⟩
        let rd := compare_orbits sess2.state
        .ok ⟨sess2, sess2.state, rd.1 - |thrust_magnitude| * 10, rd.2⟩

/-- The fixed initial state written by `reset`:
`np.array([6671., 0., 0., 0., 7.72988756, 0.])`. -/
def reset_state : StateVec := ⟨⟨6671, 0, 0⟩, ⟨0, 7.72988756, 0⟩⟩

/-- Method `reset`: empties the history and restores the fixed initial
state. -/
def reset : Session := ⟨reset_state, []⟩

/-- A vacuous integrator used to instantiate `integrate` on code paths
whose wait fraction is zero, where `step` never consults it. -/
def trivIntegrate : ℝ → StateVec → List StateVec := fun _ _ => []

/-! ### Basic evaluation lemmas -/

theorem Vec3.normSq_nonneg (a : Vec3) : 0 ≤ a.normSq := by
  unfold Vec3.normSq; positivity

theorem Vec3.norm_nonneg (a : Vec3) : 0 ≤ a.norm := Real.sqrt_nonneg _

theorem Vec3.norm_sq_eq (a : Vec3) : a.norm ^ 2 = a.normSq :=
  Real.sq_sqrt a.normSq_nonneg

theorem Vec3.norm_axis_x (c : ℝ) (hc : 0 ≤ c) : (Vec3.mk c 0 0).norm = c := by
  unfold Vec3.norm Vec3.normSq
  simp only
  rw [show c ^ 2 + 0 ^ 2 + 0 ^ 2 = c ^ 2 by ring, Real.sqrt_sq hc]

theorem Vec3.norm_axis_y (c : ℝ) (hc : 0 ≤ c) : (Vec3.mk 0 c 0).norm = c := by
  unfold Vec3.norm Vec3.normSq
  simp only
  rw [show 0 ^ 2 + c ^ 2 + 0 ^ 2 = c ^ 2 by ring, Real.sqrt_sq hc]

theorem Vec3.norm_axis_z (c : ℝ) (hc : 0 ≤ c) : (Vec3.mk 0 0 c).norm = c := by
  unfold Vec3.norm Vec3.normSq
  simp only
  rw [show 0 ^ 2 + 0 ^ 2 + c ^ 2 = c ^ 2 by ring, Real.sqrt_sq hc]

theorem Vec3.cross_planar (rx vy : ℝ) :
    (Vec3.mk rx 0 0).cross (Vec3.mk 0 vy 0) = Vec3.mk 0 0 (rx * vy) := by
  unfold Vec3.cross
  simp only [Vec3.mk.injEq]
  constructor
  · ring
  constructor
  · ring
  · ring

/-- Energy of a planar state `(rx, 0, 0, 0, vy, 0)` with nonnegative
components. -/
theorem get_energy_planar (rx vy : ℝ) (hrx : 0 ≤ rx) (hvy : 0 ≤ vy) :
    get_energy ⟨⟨rx, 0, 0⟩, ⟨0, vy, 0⟩⟩ = 0.5 * vy ^ 2 - 398600 / rx := by
  unfold get_energy earth_mu
  rw [Vec3.norm_axis_x rx hrx, Vec3.norm_axis_y vy hvy]

/-- Orbital elements of a planar state `(rx, 0, 0, 0, vy, 0)` with
positive components. -/
theorem get_orbital_elements_planar (rx vy : ℝ) (hrx : 0 < rx) (hvy : 0 < vy) :
    get_orbital_elements ⟨⟨rx, 0, 0⟩, ⟨0, vy, 0⟩⟩ =
      (-398600 / (2 * (0.5 * vy ^ 2 - 398600 / rx)),
        Real.sqrt (1 + (2 * (rx * vy) ^ 2 * (0.5 * vy ^ 2 - 398600 / rx)) / 398600 ^ 2),
        Real.arccos 1) := by
  unfold get_orbital_elements earth_mu
  rw [Vec3.norm_axis_x rx hrx.le, Vec3.norm_axis_y vy hvy.le, Vec3.cross_planar]
  have hrv : 0 ≤ rx * vy := by positivity
  have hne : rx * vy ≠ 0 := by positivity
  dsimp only
  rw [Vec3.norm_axis_z _ hrv, div_self hne]

/-! ### The action grid, evaluated -/

theorem wait_actions_eq : wait_actions = [0, 1 / 4, 1 / 2, 3 / 4] := by
  unfold wait_actions linspace
  simp [List.range_succ]
  norm_num

theorem thrust_actions_eq :
    thrust_actions = [-(1 / 2), -(1 / 5), 1 / 10, 2 / 5, 7 / 10, 1] := by
  unfold thrust_actions linspace
  simp [List.range_succ]
  norm_num

theorem action_pairs_eq :
    action_pairs =
      [(0, -(1 / 2)), (0, -(1 / 5)), (0, 1 / 10), (0, 2 / 5), (0, 7 / 10), (0, 1),
       (1 / 4, -(1 / 2)), (1 / 4, -(1 / 5)), (1 / 4, 1 / 10), (1 / 4, 2 / 5),
       (1 / 4, 7 / 10), (1 / 4, 1),
       (1 / 2, -(1 / 2)), (1 / 2, -(1 / 5)), (1 / 2, 1 / 10), (1 / 2, 2 / 5),
       (1 / 2, 7 / 10), (1 / 2, 1),
       (3 / 4, -(1 / 2)), (3 / 4, -(1 / 5)), (3 / 4, 1 / 10), (3 / 4, 2 / 5),
       (3 / 4, 7 / 10), (3 / 4, 1)] := by
  unfold action_pairs
  rw [wait_actions_eq, thrust_actions_eq]
  rfl

theorem action_pairs_length : action_pairs.length = 24 := by
  rw [action_pairs_eq]
  rfl

/-- Every decoded wait fraction lies on the four-point grid. -/
theorem action_map_wait_mem (idx : ℤ) (w t : ℝ)
    (h : action_map idx = some (w, t)) :
    w = 0 ∨ w = 1 / 4 ∨ w = 1 / 2 ∨ w = 3 / 4 := by
  unfold action_map at h
  by_cases hneg : idx < 0
  · rw [if_pos hneg] at h
    exact absurd h (by simp)
  · rw [if_neg hneg] at h
    have hmem : (w, t) ∈ action_pairs := List.get?_mem h
    rw [action_pairs_eq] at hmem
    simp only [List.mem_cons, List.not_mem_nil, or_false, Prod.mk.injEq] at hmem
    rcases hmem with ⟨h1, _⟩ | ⟨h1, _⟩ | ⟨h1, _⟩ | ⟨h1, _⟩ | ⟨h1, _⟩ | ⟨h1, _⟩ |
      ⟨h1, _⟩ | ⟨h1, _⟩ | ⟨h1, _⟩ | ⟨h1, _⟩ | ⟨h1, _⟩ | ⟨h1, _⟩ |
      ⟨h1, _⟩ | ⟨h1, _⟩ | ⟨h1, _⟩ | ⟨h1, _⟩ | ⟨h1, _⟩ | ⟨h1, _⟩ |
      ⟨h1, _⟩ | ⟨h1, _⟩ | ⟨h1, _⟩ | ⟨h1, _⟩ | ⟨h1, _⟩ | ⟨h1, _⟩ <;>
    subst h1 <;> norm_num

theorem action_map_zero : action_map 0 = some (0, -(1 / 2)) := by
  unfold action_map
  rw [if_neg (by norm_num), action_pairs_eq]
  rfl

theorem action_map_one : action_map 1 = some (0, -(1 / 5)) := by
  unfold action_map
  rw [if_neg (by norm_num), action_pairs_eq]
  rfl

theorem action_map_two : action_map 2 = some (0, 1 / 10) := by
  unfold action_map
  rw [if_neg (by norm_num), action_pairs_eq]
  rfl

theorem action_map_three : action_map 3 = some (0, 2 / 5) := by
  unfold action_map
  rw [if_neg (by norm_num), action_pairs_eq]
  rfl

theorem action_map_four : action_map 4 = some (0, 7 / 10) := by
  unfold action_map
  rw [if_neg (by norm_num), action_pairs_eq]
  rfl

theorem action_map_five : action_map 5 = some (0, 1) := by
  unfold action_map
  rw [if_neg (by norm_num), action_pairs_eq]
  rfl

/-- Indices outside `[0, 24)` miss the dictionary. -/
theorem action_map_out_of_range (idx : ℤ) (h : idx < 0 ∨ 24 ≤ idx) :
    action_map idx = none := by
  unfold action_map
  rcases h with h | h
  · rw [if_pos h]
  · rw [if_neg (by omega)]
    apply List.get?_eq_none.mpr
    rw [action_pairs_length]
    omega

/-! ### Elements of the fixed target orbit -/

theorem v_mag_final_sq : v_mag_final ^ 2 = 398600 / 42157 := by
  unfold v_mag_final earth_mu r_mag_final earth_radius
  rw [Real.sq_sqrt (by norm_num)]
  norm_num

theorem v_mag_final_pos : 0 < v_mag_final := by
  unfold v_mag_final earth_mu r_mag_final earth_radius
  apply Real.sqrt_pos.mpr
  norm_num

/-- The target orbit is exactly circular at radius 42157 km: its
elements evaluate to `a = 42157`, `e = 0`, `i = 0`. -/
theorem final_orbit_elements : get_orbital_elements final_orbit = (42157, 0, 0) := by
  have hr : r_mag_final = 42157 := by unfold r_mag_final earth_radius; norm_num
  have h := get_orbital_elements_planar r_mag_final v_mag_final
    (by rw [hr]; norm_num) v_mag_final_pos
  unfold final_orbit
  rw [h, hr]
  simp only [Prod.mk.injEq]
  refine ⟨by rw [v_mag_final_sq]; norm_num, ?_, Real.arccos_one⟩
  rw [mul_pow, v_mag_final_sq]
  norm_num [Real.sqrt_eq_zero']

/-- Evaluation of `compare_orbits` against the target elements
`(42157, 0, 0)`. -/
theorem compare_orbits_eval (s : StateVec) :
    compare_orbits s =
      if |(42157 : ℝ) - (get_orbital_elements s).1| / 42157 < 0.1 ∧
          max |(0 : ℝ) - (get_orbital_elements s).2.1| 0.01 < 0.1 then
        (2001, true)
      else (1, false) := by
  unfold compare_orbits
  rw [final_orbit_elements]
  dsimp only
  rw [show |((42157 : ℝ) - (get_orbital_elements s).1) / 42157| =
      |(42157 : ℝ) - (get_orbital_elements s).1| / 42157 by
    rw [abs_div, abs_of_pos (show (0 : ℝ) < 42157 by norm_num)]]
  by_cases hc : |(42157 : ℝ) - (get_orbital_elements s).1| / 42157 < 0.1 ∧
      max |(0 : ℝ) - (get_orbital_elements s).2.1| 0.01 < 0.1
  · rw [if_pos hc, if_pos hc]
    norm_num
  · rw [if_neg hc, if_neg hc]

/-- C3: for every current state, `compare_orbits` returns reward `2001`
and termination `true` exactly when `aDiff = |aTarget - aCurrent| / aTarget
< 0.1` and `eDiff = max (|eTarget - eCurrent|) 0.01 < 0.1` both hold (with
`aTarget = 42157` and `eTarget = 0`, the elements of the fixed target
orbit), and reward `1` with termination `false` otherwise.  The
right-hand side depends only on the semi-major axis and eccentricity of
the state, so the inclination difference never affects the result. -/
theorem compare_orbits_reward_termination (s : StateVec) :
    compare_orbits s =
      if |(42157 : ℝ) - (get_orbital_elements s).1| / 42157 < 0.1 ∧
          max |(0 : ℝ) - (get_orbital_elements s).2.1| 0.01 < 0.1 then
        (2001, true)
      else (1, false) :=
  compare_orbits_eval s

/-! ### Nonnegativity of the eccentricity radicand -/

/-- Lagrange identity for the 3-dimensional cross product. -/
theorem Vec3.cross_normSq (a b : Vec3) :
    (a.cross b).normSq =
      a.normSq * b.normSq - (a.x * b.x + a.y * b.y + a.z * b.z) ^ 2 := by
  unfold Vec3.cross Vec3.normSq
  ring

/-- The quantity under the square root in the eccentricity formula is
nonnegative whenever the angular momentum is non-zero, so `np.sqrt`
never receives a negative argument there. -/
theorem ecc_radicand_nonneg (s : StateVec) (hh : (s.r.cross s.v).norm ≠ 0) :
    0 ≤ 1 + (2 * (s.r.cross s.v).norm ^ 2 * get_energy s) / earth_mu ^ 2 := by
  have hn_nonneg : 0 ≤ (s.r.cross s.v).norm := Vec3.norm_nonneg _
  have hnsq : (s.r.cross s.v).norm ^ 2 = (s.r.cross s.v).normSq :=
    Vec3.norm_sq_eq _
  have hHpos : 0 < (s.r.cross s.v).normSq := by
    have := (Real.sqrt_ne_zero' (x := (s.r.cross s.v).normSq)).mp hh
    exact this
  have hlag := Vec3.cross_normSq s.r s.v
  have hd : 0 ≤ (s.r.x * s.v.x + s.r.y * s.v.y + s.r.z * s.v.z) ^ 2 := sq_nonneg _
  have hrSq : 0 < s.r.normSq := by
    have h1 : 0 ≤ s.r.normSq := s.r.normSq_nonneg
    have h2 : 0 ≤ s.v.normSq := s.v.normSq_nonneg
    nlinarith [hHpos, hlag, hd]
  have hrn : 0 < s.r.norm := Real.sqrt_pos.mpr hrSq
  have hvn : 0 ≤ s.v.norm := Vec3.norm_nonneg _
  have hrnsq : s.r.norm ^ 2 = s.r.normSq := Vec3.norm_sq_eq _
  have hvnsq : s.v.norm ^ 2 = s.v.normSq := Vec3.norm_sq_eq _
  have hle : (s.r.cross s.v).norm ≤ s.r.norm * s.v.norm := by
    have h1 : (s.r.cross s.v).normSq ≤ (s.r.norm * s.v.norm) ^ 2 := by
      rw [mul_pow, hrnsq, hvnsq, hlag]
      nlinarith [hd]
    calc (s.r.cross s.v).norm = Real.sqrt (s.r.cross s.v).normSq := rfl
      _ ≤ Real.sqrt ((s.r.norm * s.v.norm) ^ 2) := Real.sqrt_le_sqrt h1
      _ = s.r.norm * s.v.norm := Real.sqrt_sq (by positivity)
  have hq : (398600 / s.r.norm) * s.r.norm = 398600 :=
    div_mul_cancel₀ _ hrn.ne'
  have key : 0 ≤ (398600 : ℝ) ^ 2 + 2 * (s.r.cross s.v).norm ^ 2 * get_energy s := by
    unfold get_energy earth_mu
    set hn := (s.r.cross s.v).norm with hhn
    set rn := s.r.norm with hrn'
    set vn := s.v.norm with hvn'
    have expand : (398600 : ℝ) ^ 2 + 2 * hn ^ 2 * (0.5 * vn ^ 2 - 398600 / rn) =
        398600 ^ 2 + hn ^ 2 * vn ^ 2 - 2 * hn ^ 2 * (398600 / rn) := by ring
    rw [expand]
    nlinarith [mul_nonneg hrn.le (sq_nonneg (398600 - hn * vn)),
      mul_nonneg (mul_nonneg (by norm_num : (0 : ℝ) ≤ 2 * 398600) hn_nonneg)
        (sub_nonneg.mpr hle), hq, hrn, sq_nonneg hn]
  have hmu : (0 : ℝ) < earth_mu ^ 2 := by unfold earth_mu; norm_num
  have : 1 + (2 * (s.r.cross s.v).norm ^ 2 * get_energy s) / earth_mu ^ 2 =
      (earth_mu ^ 2 + 2 * (s.r.cross s.v).norm ^ 2 * get_energy s) / earth_mu ^ 2 := by
    field_simp
  rw [this]
  apply div_nonneg _ hmu.le
  unfold earth_mu
  exact key

/-- C8: for every state vector with non-zero angular momentum and
non-zero specific energy, `get_orbital_elements` is deterministic (two
evaluations on the same input agree), the returned eccentricity is the
square root of a nonnegative radicand (so `np.sqrt` never sees a
negative argument), and the eccentricity is nonnegative. -/
theorem orbital_elements_deterministic_ecc_nonneg (s : StateVec)
    (hh : (s.r.cross s.v).norm ≠ 0) (_hE : get_energy s ≠ 0) :
    get_orbital_elements s = get_orbital_elements s ∧
    (get_orbital_elements s).2.1 =
      Real.sqrt (1 + (2 * (s.r.cross s.v).norm ^ 2 * get_energy s) / earth_mu ^ 2) ∧
    0 ≤ 1 + (2 * (s.r.cross s.v).norm ^ 2 * get_energy s) / earth_mu ^ 2 ∧
    0 ≤ (get_orbital_elements s).2.1 := by
  refine ⟨rfl, rfl, ecc_radicand_nonneg s hh, ?_⟩
  exact Real.sqrt_nonneg _

/-- Witness for C8 at the initial state written by `reset`. -/
theorem orbital_elements_deterministic_ecc_nonneg_witness :
    ((reset_state.r.cross reset_state.v).norm ≠ 0 ∧ get_energy reset_state ≠ 0) ∧
    0 ≤ (get_orbital_elements reset_state).2.1 := by
  have hcross : (reset_state.r.cross reset_state.v).norm = 6671 * 7.72988756 := by
    unfold reset_state
    rw [Vec3.cross_planar]
    exact Vec3.norm_axis_z _ (by norm_num)
  have h1 : (reset_state.r.cross reset_state.v).norm ≠ 0 := by
    rw [hcross]; norm_num
  have h2 : get_energy reset_state ≠ 0 := by
    unfold reset_state
    rw [get_energy_planar 6671 7.72988756 (by norm_num) (by norm_num)]
    norm_num
  exact ⟨⟨h1, h2⟩,
    (orbital_elements_deterministic_ecc_nonneg reset_state h1 h2).2.2.2⟩

/-- C2 (code bug): propagating for duration `0` does not return the
initial state.  The call computes `max_step = duration / 100 = 0` and
hands it to `solve_ivp`; scipy's `validate_max_step` rejects any
non-positive `max_step` with `ValueError`, so the call raises before any
integration happens, for every integrator behaviour and every starting
session — contradicting the specified zero-duration identity. -/
theorem orbit_propogation_zero_duration_raises
    (integrate : ℝ → StateVec → List StateVec) (sess : Session) :
    orbit_propogation integrate 0 sess = .error .valueError := by
  unfold orbit_propogation
  rw [if_pos (by norm_num)]

/-- C5: an action index outside `[0, 24)` makes `step` fail fast with
the dictionary lookup error, for every integrator and session; the index
is never clamped to a valid action. -/
theorem step_invalid_index_raises (idx : ℤ) (h : idx < 0 ∨ 24 ≤ idx)
    (integrate : ℝ → StateVec → List StateVec) (sess : Session) :
    step integrate idx sess = .error .keyError := by
  unfold step
  rw [action_map_out_of_range idx h]

/-- Witness for C5 at the first out-of-range index, 24. -/
theorem step_invalid_index_raises_witness :
    ((24 : ℤ) < 0 ∨ 24 ≤ (24 : ℤ)) ∧
    step trivIntegrate 24 reset = .error .keyError :=
  ⟨Or.inr (le_refl _),
    step_invalid_index_raises 24 (Or.inr (le_refl _)) trivIntegrate reset⟩

/-! ### Step evaluation lemmas -/

/-- The impulsive thrust applied by `step`: position kept, velocity
incremented by the velocity unit vector scaled by the thrust magnitude
and by `0.5`. -/
def impulse (t : ℝ) (s : StateVec) : StateVec :=
  ⟨s.r, s.v.addV (((s.v.divScalar s.v.norm).mulScalar t).mulScalar 0.5)⟩

/-- On the degenerate-orbit branch, `step` returns unchanged session,
the pre-call state as observation, reward `-5000 - |t|` and `true`. -/
theorem step_degenerate_eq (integrate : ℝ → StateVec → List StateVec)
    (idx : ℤ) (sess : Session) (w t : ℝ)
    (hdec : action_map idx = some (w, t))
    (hdeg : get_semimajor_axis sess.state < earth_radius) :
    step integrate idx sess = .ok ⟨sess, sess.state, -5000 - |t|, true⟩ := by
  unfold step
  rw [hdec]
  dsimp only
  rw [if_pos hdeg]

/-- On a non-degenerate zero-wait action, `step` skips propagation and
returns the impulse-updated session with the history untouched. -/
theorem step_zero_wait_eq (integrate : ℝ → StateVec → List StateVec)
    (idx : ℤ) (sess : Session) (t : ℝ)
    (hdec : action_map idx = some (0, t))
    (hnd : ¬ get_semimajor_axis sess.state < earth_radius) :
    step integrate idx sess =
      .ok ⟨⟨impulse t sess.state, sess.x_hist⟩, impulse t sess.state,
        (compare_orbits (impulse t sess.state)).1 - |t| * 10,
        (compare_orbits (impulse t sess.state)).2⟩ := by
  unfold step impulse
  rw [hdec]
  dsimp only
  rw [if_neg hnd, if_neg (show ¬((0 : ℝ) ≠ 0) by simp)]

/-- On a non-degenerate positive-wait action, `step` propagates through
the wait phase (the duration handed to the integrator is positive, so
scipy's `max_step` validation passes) and then applies the impulse. -/
theorem step_pos_wait_eq (integrate : ℝ → StateVec → List StateVec)
    (idx : ℤ) (sess : Session) (w t : ℝ)
    (hdec : action_map idx = some (w, t)) (hw : 0 < w)
    (hnd : ¬ get_semimajor_axis sess.state < earth_radius) :
    step integrate idx sess =
      let duration :=
        2 * Real.pi * Real.sqrt (get_semimajor_axis sess.state ^ 3 / earth_mu) * w
      let traj := integrate duration sess.state
      let sess1 : Session := ⟨traj.getLastD sess.state, sess.x_hist ++ traj⟩
      .ok ⟨⟨impulse t sess1.state, sess1.x_hist⟩, impulse t sess1.state,
        (compare_orbits (impulse t sess1.state)).1 - |t| * 10,
        (compare_orbits (impulse t sess1.state)).2⟩ := by
  have ha : 0 < get_semimajor_axis sess.state := by
    have h1 : (6371 : ℝ) ≤ get_semimajor_axis sess.state := by
      have := not_lt.mp hnd
      unfold earth_radius at this
      exact this
    linarith
  have hdur : ¬ (2 * Real.pi *
      Real.sqrt (get_semimajor_axis sess.state ^ 3 / earth_mu) * w / 100 ≤ 0) := by
    push_neg
    have hsq : 0 < Real.sqrt (get_semimajor_axis sess.state ^ 3 / earth_mu) := by
      apply Real.sqrt_pos.mpr
      unfold earth_mu
      positivity
    positivity
  unfold step orbit_propogation impulse
  rw [hdec]
  dsimp only
  rw [if_neg hnd, if_pos (show w ≠ 0 from hw.ne'), if_neg hdur]

/-- C1 (amended: the source guard is the strict comparison
`a < earth_radius`): whenever the current semi-major axis is strictly
below the primary-body radius, `step` with any valid action index
returns `terminated = true` and reward `-5000 - |t| ≤ -5000`, without
raising an exception. -/
theorem step_degenerate_orbit_failure (integrate : ℝ → StateVec → List StateVec)
    (idx : ℤ) (sess : Session) (w t : ℝ)
    (hdec : action_map idx = some (w, t))
    (hdeg : get_semimajor_axis sess.state < earth_radius) :
    step integrate idx sess = .ok ⟨sess, sess.state, -5000 - |t|, true⟩ ∧
    -5000 - |t| ≤ -5000 :=
  ⟨step_degenerate_eq integrate idx sess w t hdec hdeg, by
    have := abs_nonneg t; linarith⟩

/-- Witness for C1 (amended) at a strictly degenerate state. -/
theorem step_degenerate_orbit_failure_witness :
    action_map 1 = some (0, -(1 / 5)) ∧
    get_semimajor_axis ⟨⟨1000, 0, 0⟩, ⟨0, 1, 0⟩⟩ < earth_radius ∧
    (step trivIntegrate 1 ⟨⟨⟨1000, 0, 0⟩, ⟨0, 1, 0⟩⟩, []⟩ =
        .ok ⟨⟨⟨⟨1000, 0, 0⟩, ⟨0, 1, 0⟩⟩, []⟩, ⟨⟨1000, 0, 0⟩, ⟨0, 1, 0⟩⟩,
          -5000 - |(-(1 / 5) : ℝ)|, true⟩ ∧
      -5000 - |(-(1 / 5) : ℝ)| ≤ -5000) := by
  have hdeg : get_semimajor_axis (⟨⟨1000, 0, 0⟩, ⟨0, 1, 0⟩⟩ : StateVec) <
      earth_radius := by
    unfold get_semimajor_axis earth_radius earth_mu
    rw [get_energy_planar 1000 1 (by norm_num) (by norm_num)]
    norm_num
  exact ⟨action_map_one, hdeg,
    step_degenerate_orbit_failure trivIntegrate 1 _ 0 (-(1 / 5))
      action_map_one hdeg⟩

/-- C9: on the degenerate-orbit failure branch, `step` leaves the
session untouched — the current state vector and the trajectory history
are exactly those of the pre-call session — and the observation it
returns is the pre-call state. -/
theorem step_degenerate_branch_atomic (integrate : ℝ → StateVec → List StateVec)
    (idx : ℤ) (sess : Session) (w t : ℝ)
    (hdec : action_map idx = some (w, t))
    (hdeg : get_semimajor_axis sess.state < earth_radius) :
    ∃ rew : ℝ, step integrate idx sess = .ok ⟨sess, sess.state, rew, true⟩ :=
  ⟨-5000 - |t|, step_degenerate_eq integrate idx sess w t hdec hdeg⟩

/-- Witness for C9 at a strictly degenerate state. -/
theorem step_degenerate_branch_atomic_witness :
    action_map 5 = some (0, 1) ∧
    get_semimajor_axis ⟨⟨2000, 0, 0⟩, ⟨0, 1, 0⟩⟩ < earth_radius ∧
    ∃ rew : ℝ, step trivIntegrate 5 ⟨⟨⟨2000, 0, 0⟩, ⟨0, 1, 0⟩⟩, []⟩ =
      .ok ⟨⟨⟨⟨2000, 0, 0⟩, ⟨0, 1, 0⟩⟩, []⟩, ⟨⟨2000, 0, 0⟩, ⟨0, 1, 0⟩⟩, rew, true⟩ := by
  have hdeg : get_semimajor_axis (⟨⟨2000, 0, 0⟩, ⟨0, 1, 0⟩⟩ : StateVec) <
      earth_radius := by
    unfold get_semimajor_axis earth_radius earth_mu
    rw [get_energy_planar 2000 1 (by norm_num) (by norm_num)]
    norm_num
  exact ⟨action_map_five, hdeg,
    step_degenerate_branch_atomic trivIntegrate 5 _ 0 1 action_map_five hdeg⟩

/-- The initial-orbit state written by `reset` is not degenerate: its
semi-major axis is about 6671 km, above the primary-body radius. -/
theorem reset_not_degenerate :
    ¬ get_semimajor_axis reset_state < earth_radius := by
  unfold get_semimajor_axis earth_radius earth_mu reset_state
  rw [get_energy_planar 6671 7.72988756 (by norm_num) (by norm_num)]
  norm_num

/-- C6: on a non-degenerate step whose decoded wait fraction is 0, the
thrust impulse updates only the velocity: the new velocity is
`v + (0.5 * t) • (v / ‖v‖)` and the position is unchanged. -/
theorem step_zero_wait_velocity_only (integrate : ℝ → StateVec → List StateVec)
    (idx : ℤ) (sess : Session) (t : ℝ)
    (hdec : action_map idx = some (0, t))
    (hnd : ¬ get_semimajor_axis sess.state < earth_radius) :
    ∃ (rew : ℝ) (dn : Bool), step integrate idx sess =
      .ok ⟨⟨⟨sess.state.r, sess.state.v.addV (Vec3.smul (0.5 * t)
          (sess.state.v.divScalar sess.state.v.norm))⟩, sess.x_hist⟩,
        ⟨sess.state.r, sess.state.v.addV (Vec3.smul (0.5 * t)
          (sess.state.v.divScalar sess.state.v.norm))⟩, rew, dn⟩ := by
  have hS : impulse t sess.state =
      ⟨sess.state.r, sess.state.v.addV (Vec3.smul (0.5 * t)
        (sess.state.v.divScalar sess.state.v.norm))⟩ := by
    unfold impulse Vec3.smul Vec3.mulScalar Vec3.divScalar Vec3.addV
    simp only [StateVec.mk.injEq, Vec3.mk.injEq, true_and]
    refine ⟨?_, ?_, ?_⟩ <;> ring
  refine ⟨(compare_orbits (impulse t sess.state)).1 - |t| * 10,
    (compare_orbits (impulse t sess.state)).2, ?_⟩
  rw [step_zero_wait_eq integrate idx sess t hdec hnd, hS]

/-- Witness for C6 at the initial session. -/
theorem step_zero_wait_velocity_only_witness :
    action_map 2 = some (0, 1 / 10) ∧
    (¬ get_semimajor_axis reset.state < earth_radius) ∧
    ∃ (rew : ℝ) (dn : Bool), step trivIntegrate 2 reset =
      .ok ⟨⟨⟨reset.state.r, reset.state.v.addV (Vec3.smul (0.5 * (1 / 10))
          (reset.state.v.divScalar reset.state.v.norm))⟩, reset.x_hist⟩,
        ⟨reset.state.r, reset.state.v.addV (Vec3.smul (0.5 * (1 / 10))
          (reset.state.v.divScalar reset.state.v.norm))⟩, rew, dn⟩ :=
  ⟨action_map_two, reset_not_degenerate,
    step_zero_wait_velocity_only trivIntegrate 2 reset (1 / 10)
      action_map_two reset_not_degenerate⟩

/-- C10: a step whose decoded wait fraction is 0 leaves the trajectory
history unchanged, whichever branch it takes: history grows only through
the propagation performed during a non-zero wait phase. -/
theorem step_zero_wait_history_unchanged (integrate : ℝ → StateVec → List StateVec)
    (idx : ℤ) (sess : Session) (t : ℝ)
    (hdec : action_map idx = some (0, t)) :
    ∃ out : StepOut, step integrate idx sess = .ok out ∧
      out.session.x_hist = sess.x_hist := by
  by_cases hdeg : get_semimajor_axis sess.state < earth_radius
  · exact ⟨_, step_degenerate_eq integrate idx sess 0 t hdec hdeg, rfl⟩
  · exact ⟨_, step_zero_wait_eq integrate idx sess t hdec hdeg, rfl⟩

/-- Witness for C10 at the initial session. -/
theorem step_zero_wait_history_unchanged_witness :
    action_map 3 = some (0, 2 / 5) ∧
    ∃ out : StepOut, step trivIntegrate 3 reset = .ok out ∧
      out.session.x_hist = reset.x_hist :=
  ⟨action_map_three,
    step_zero_wait_history_unchanged trivIntegrate 3 reset (2 / 5)
      action_map_three⟩

/-- C7: on every non-degenerate step, the returned reward equals the
reward computed by `compare_orbits` on the updated session state minus
`10 * |t|`, the fixed-weight thrust penalty. -/
theorem step_reward_thrust_penalty (integrate : ℝ → StateVec → List StateVec)
    (idx : ℤ) (sess : Session) (w t : ℝ)
    (hdec : action_map idx = some (w, t))
    (hnd : ¬ get_semimajor_axis sess.state < earth_radius) :
    ∃ out : StepOut, step integrate idx sess = .ok out ∧
      out.reward = (compare_orbits out.session.state).1 - |t| * 10 := by
  rcases action_map_wait_mem idx w t hdec with h0 | h | h | h
  · subst h0
    exact ⟨_, step_zero_wait_eq integrate idx sess t hdec hnd, rfl⟩
  · subst h
    exact ⟨_, step_pos_wait_eq integrate idx sess _ t hdec (by norm_num) hnd, rfl⟩
  · subst h
    exact ⟨_, step_pos_wait_eq integrate idx sess _ t hdec (by norm_num) hnd, rfl⟩
  · subst h
    exact ⟨_, step_pos_wait_eq integrate idx sess _ t hdec (by norm_num) hnd, rfl⟩

/-- Witness for C7 at the initial session. -/
theorem step_reward_thrust_penalty_witness :
    action_map 4 = some (0, 7 / 10) ∧
    (¬ get_semimajor_axis reset.state < earth_radius) ∧
    ∃ out : StepOut, step trivIntegrate 4 reset = .ok out ∧
      out.reward = (compare_orbits out.session.state).1 - |(7 : ℝ) / 10| * 10 :=
  ⟨action_map_four, reset_not_degenerate,
    step_reward_thrust_penalty trivIntegrate 4 reset 0 (7 / 10)
      action_map_four reset_not_degenerate⟩

/-! ### A state whose semi-major axis equals the primary-body radius -/

/-- A state vector whose semi-major axis is exactly 6371 km: position
`(398600 * 12742 / 404971, 0, 0)`, velocity `(0, 1, 0)`. -/
def boundary_state : StateVec := ⟨⟨398600 * 12742 / 404971, 0, 0⟩, ⟨0, 1, 0⟩⟩

theorem boundary_state_semimajor : get_semimajor_axis boundary_state = 6371 := by
  unfold get_semimajor_axis earth_mu boundary_state
  rw [get_energy_planar _ 1 (by norm_num) (by norm_num)]
  norm_num

/-- Counterexample to C1 as stated: at a session whose semi-major axis
equals the primary-body radius (so `a ≤ 6371` holds), `step` with the
valid action index 0 does not take the failure branch: it returns
`terminated = false` with reward `-4`, because the source guard is the
strict comparison `a < earth_radius`. -/
theorem step_at_boundary_radius_not_terminated :
    get_semimajor_axis boundary_state ≤ earth_radius ∧
    step trivIntegrate 0 ⟨boundary_state, []⟩ =
      .ok ⟨⟨⟨⟨398600 * 12742 / 404971, 0, 0⟩, ⟨0, 3 / 4, 0⟩⟩, []⟩,
        ⟨⟨398600 * 12742 / 404971, 0, 0⟩, ⟨0, 3 / 4, 0⟩⟩, -4, false⟩ := by
  have hb := boundary_state_semimajor
  have h1 : get_semimajor_axis boundary_state ≤ earth_radius := by
    rw [hb]; unfold earth_radius; norm_num
  have hnd : ¬ get_semimajor_axis boundary_state < earth_radius := by
    rw [hb]; unfold earth_radius; norm_num
  refine ⟨h1, ?_⟩
  rw [step_zero_wait_eq trivIntegrate 0 ⟨boundary_state, []⟩ (-(1 / 2))
    action_map_zero hnd]
  have himp : impulse (-(1 / 2)) boundary_state =
      ⟨⟨398600 * 12742 / 404971, 0, 0⟩, ⟨0, 3 / 4, 0⟩⟩ := by
    unfold impulse boundary_state Vec3.mulScalar Vec3.divScalar Vec3.addV
    rw [Vec3.norm_axis_y 1 (by norm_num)]
    simp only [StateVec.mk.injEq, Vec3.mk.injEq]
    norm_num
  rw [himp]
  have hcond : ¬ (|(42157 : ℝ) -
      (get_orbital_elements ⟨⟨398600 * 12742 / 404971, 0, 0⟩, ⟨0, 3 / 4, 0⟩⟩).1| /
        42157 < 0.1 ∧
      max |(0 : ℝ) -
        (get_orbital_elements ⟨⟨398600 * 12742 / 404971, 0, 0⟩, ⟨0, 3 / 4, 0⟩⟩).2.1|
        0.01 < 0.1) := by
    rw [get_orbital_elements_planar _ _ (by norm_num) (by norm_num)]
    intro hc
    have h2 := hc.1
    dsimp only at h2
    rw [div_lt_iff₀ (show (0 : ℝ) < 42157 by norm_num), abs_lt] at h2
    have h3 := h2.2
    norm_num at h3
  have hcmp : compare_orbits ⟨⟨398600 * 12742 / 404971, 0, 0⟩, ⟨0, 3 / 4, 0⟩⟩ =
      (1, false) := by
    rw [compare_orbits_eval, if_neg hcond]
  rw [hcmp]
  have habs : |(-(1 / 2) : ℝ)| = 1 / 2 := by
    rw [abs_neg, abs_of_pos]; norm_num
  rw [habs]
  norm_num

/-! ### A terminating step followed by a further step -/

theorem v_mag_final_bounds : 3.07 < v_mag_final ∧ v_mag_final < 3.08 := by
  have hsq := v_mag_final_sq
  have hpos := v_mag_final_pos
  constructor
  · by_contra h
    push_neg at h
    nlinarith
  · by_contra h
    push_neg at h
    nlinarith

theorem get_semimajor_axis_planar (rx vy : ℝ) (hrx : 0 ≤ rx) (hvy : 0 ≤ vy) :
    get_semimajor_axis ⟨⟨rx, 0, 0⟩, ⟨0, vy, 0⟩⟩ =
      -398600 / (2 * (0.5 * vy ^ 2 - 398600 / rx)) := by
  unfold get_semimajor_axis earth_mu
  rw [get_energy_planar rx vy hrx hvy]

/-- Session one thrust impulse short of the target orbit: circular
radius but speed `v_mag_final - 1/2`, so the zero-wait full-thrust
action (index 5) lands exactly on the target orbit. -/
def sessionA : Session := ⟨⟨⟨42157, 0, 0⟩, ⟨0, v_mag_final - 1 / 2, 0⟩⟩, []⟩

/-- The target-orbit state reached by the terminating step. -/
def stateB : StateVec := ⟨⟨42157, 0, 0⟩, ⟨0, v_mag_final, 0⟩⟩

/-- The state reached by a further step after termination. -/
def stateC : StateVec := ⟨⟨42157, 0, 0⟩, ⟨0, v_mag_final - 1 / 4, 0⟩⟩

theorem sessionA_not_degenerate :
    ¬ get_semimajor_axis sessionA.state < earth_radius := by
  have hw := v_mag_final_bounds
  have hsq := v_mag_final_sq
  have hv : (0 : ℝ) ≤ v_mag_final - 1 / 2 := by linarith [hw.1]
  unfold sessionA earth_radius
  dsimp only
  rw [get_semimajor_axis_planar 42157 _ (by norm_num) hv]
  have hE : 0.5 * (v_mag_final - 1 / 2) ^ 2 - 398600 / 42157 < -6 := by
    nlinarith [hw.1, hw.2]
  have hE2 : 0.5 * (v_mag_final - 1 / 2) ^ 2 - 398600 / 42157 > -7 := by
    nlinarith [hw.1, hw.2]
  have hneg : 2 * (0.5 * (v_mag_final - 1 / 2) ^ 2 - 398600 / 42157) < 0 := by
    linarith
  intro hlt
  rw [div_lt_iff_of_neg hneg] at hlt
  nlinarith [hE2]

theorem stateB_not_degenerate :
    ¬ get_semimajor_axis stateB < earth_radius := by
  unfold stateB earth_radius
  rw [get_semimajor_axis_planar 42157 _ (by norm_num) v_mag_final_pos.le,
    v_mag_final_sq]
  norm_num

theorem impulse_sessionA : impulse 1 sessionA.state = stateB := by
  have hw := v_mag_final_bounds
  have hpos : (0 : ℝ) < v_mag_final - 1 / 2 := by linarith [hw.1]
  unfold sessionA stateB impulse Vec3.mulScalar Vec3.divScalar Vec3.addV
  dsimp only
  rw [Vec3.norm_axis_y _ hpos.le, div_self hpos.ne']
  simp only [StateVec.mk.injEq, Vec3.mk.injEq]
  norm_num

theorem impulse_stateB : impulse (-(1 / 2)) stateB = stateC := by
  have hpos := v_mag_final_pos
  unfold stateB stateC impulse Vec3.mulScalar Vec3.divScalar Vec3.addV
  dsimp only
  rw [Vec3.norm_axis_y _ hpos.le, div_self hpos.ne']
  simp only [StateVec.mk.injEq, Vec3.mk.injEq]
  norm_num
  ring

theorem stateB_elements : get_orbital_elements stateB = (42157, 0, 0) := by
  unfold stateB
  rw [get_orbital_elements_planar 42157 v_mag_final (by norm_num) v_mag_final_pos]
  simp only [Prod.mk.injEq]
  refine ⟨by rw [v_mag_final_sq]; norm_num, ?_, Real.arccos_one⟩
  rw [mul_pow, v_mag_final_sq]
  norm_num [Real.sqrt_eq_zero']

theorem compare_stateB : compare_orbits stateB = (2001, true) := by
  rw [compare_orbits_eval, stateB_elements]
  norm_num

theorem compare_stateC : compare_orbits stateC = (1, false) := by
  have hw := v_mag_final_bounds
  have hsq := v_mag_final_sq
  have hvpos : (0 : ℝ) < v_mag_final - 1 / 4 := by linarith [hw.1]
  have hel := get_orbital_elements_planar 42157 (v_mag_final - 1 / 4)
    (by norm_num) hvpos
  rw [compare_orbits_eval]
  unfold stateC
  rw [hel]
  split_ifs with h
  · exfalso
    have h2 := h.1
    dsimp only at h2
    rw [div_lt_iff₀ (show (0 : ℝ) < 42157 by norm_num), abs_lt] at h2
    have h3 := h2.2
    have hEC : 0.5 * (v_mag_final - 1 / 4) ^ 2 - 398600 / 42157 < -5.46 := by
      nlinarith [hw.1, hw.2]
    have hneg : 2 * (0.5 * (v_mag_final - 1 / 4) ^ 2 - 398600 / 42157) < 0 := by
      linarith
    have haC : -398600 / (2 * (0.5 * (v_mag_final - 1 / 4) ^ 2 - 398600 / 42157)) <
        37000 := by
      rw [div_lt_iff_of_neg hneg]
      nlinarith [hEC]
    nlinarith [h3, haC]
  · rfl

/-- The terminating step: from `sessionA`, action 5 (zero wait, full
thrust) reaches the target orbit and reports `done = true`. -/
theorem stepA_eval : step trivIntegrate 5 sessionA =
    .ok ⟨⟨stateB, []⟩, stateB, 1991, true⟩ := by
  rw [step_zero_wait_eq trivIntegrate 5 sessionA 1 action_map_five
    sessionA_not_degenerate]
  rw [impulse_sessionA, compare_stateB]
  have hx : sessionA.x_hist = [] := rfl
  rw [hx]
  norm_num

/-- The step after termination: the session is processed like any other
and its state is mutated by the decoded thrust. -/
theorem stepB_eval : step trivIntegrate 0 ⟨stateB, []⟩ =
    .ok ⟨⟨stateC, []⟩, stateC, -4, false⟩ := by
  rw [step_zero_wait_eq trivIntegrate 0 ⟨stateB, []⟩ (-(1 / 2))
    action_map_zero stateB_not_degenerate]
  have hst : (⟨stateB, []⟩ : Session).state = stateB := rfl
  have hx : (⟨stateB, []⟩ : Session).x_hist = ([] : List StateVec) := rfl
  rw [hst, hx, impulse_stateB, compare_stateC]
  have habs : |(-(1 / 2) : ℝ)| = 1 / 2 := by
    rw [abs_neg, abs_of_pos]; norm_num
  rw [habs]
  norm_num

/-- Counterexample to C4 as stated: the session `sessionA` reaches
`terminated = true` through `step` with action 5, yet a further `step`
call with the valid action 0 is processed normally — it succeeds and
mutates the session state — because the code keeps no `TERMINATED`
machine state.  Both calls take the zero-wait path, which never invokes
the integrator, so instantiating it with `trivIntegrate` is faithful. -/
theorem step_processes_action_after_termination :
    step trivIntegrate 5 sessionA = .ok ⟨⟨stateB, []⟩, stateB, 1991, true⟩ ∧
    step trivIntegrate 0 ⟨stateB, []⟩ = .ok ⟨⟨stateC, []⟩, stateC, -4, false⟩ ∧
    stateC ≠ stateB :=
  ⟨stepA_eval, stepB_eval, by
    intro h
    have h2 : v_mag_final - 1 / 4 = v_mag_final := congrArg (fun s => s.v.y) h
    linarith⟩

/-- Any validly decoded action index makes `step` return `.ok`: the
degenerate branch returns, the zero-wait branch skips propagation, and
each positive wait fraction on the grid yields a positive propagation
duration that passes scipy's `max_step` validation. -/
theorem step_ok_of_valid (integrate : ℝ → StateVec → List StateVec)
    (idx : ℤ) (sess : Session) (w t : ℝ)
    (hdec : action_map idx = some (w, t)) :
    ∃ out : StepOut, step integrate idx sess = .ok out := by
  by_cases hdeg : get_semimajor_axis sess.state < earth_radius
  · exact ⟨_, step_degenerate_eq integrate idx sess w t hdec hdeg⟩
  · rcases action_map_wait_mem idx w t hdec with h0 | h | h | h
    · subst h0
      exact ⟨_, step_zero_wait_eq integrate idx sess t hdec hdeg⟩
    · subst h
      exact ⟨_, step_pos_wait_eq integrate idx sess _ t hdec (by norm_num) hdeg⟩
    · subst h
      exact ⟨_, step_pos_wait_eq integrate idx sess _ t hdec (by norm_num) hdeg⟩
    · subst h
      exact ⟨_, step_pos_wait_eq integrate idx sess _ t hdec (by norm_num) hdeg⟩

/-- C4 (amended): the code does not track a `TERMINATED` machine state.
After a `step` call reports `done = true`, a further `step` call with
any valid action index on the resulting session is processed normally
(it returns `.ok` rather than being rejected); refraining from calling
`step` again before `reset` is a caller-side convention of the gym
interface, not enforced by the environment. -/
theorem step_after_done_still_processed
    (integrate : ℝ → StateVec → List StateVec) (idx₁ : ℤ) (sess : Session)
    (out : StepOut) (_h1 : step integrate idx₁ sess = .ok out)
    (_hdone : out.done = true) (idx₂ : ℤ) (w t : ℝ)
    (hdec : action_map idx₂ = some (w, t)) :
    ∃ out₂ : StepOut, step integrate idx₂ out.session = .ok out₂ :=
  step_ok_of_valid integrate idx₂ out.session w t hdec

/-- Witness for C4 (amended) on the terminating scenario. -/
theorem step_after_done_still_processed_witness :
    step trivIntegrate 5 sessionA =
      .ok ⟨⟨stateB, []⟩, stateB, 1991, true⟩ ∧
    (⟨⟨stateB, []⟩, stateB, 1991, true⟩ : StepOut).done = true ∧
    action_map 0 = some (0, -(1 / 2)) ∧
    ∃ out₂ : StepOut,
      step trivIntegrate 0 (⟨⟨stateB, []⟩, stateB, 1991, true⟩ : StepOut).session =
        .ok out₂ :=
  ⟨stepA_eval, rfl, action_map_zero,
    step_after_done_still_processed trivIntegrate 5 sessionA
      ⟨⟨stateB, []⟩, stateB, 1991, true⟩ stepA_eval rfl 0 0 (-(1 / 2))
      action_map_zero⟩

end TwoBodyGym
